import Mathlib

/-!
The libshiboken base wrapper and the accessibility plugin snippet.

A shallow embedding of `libshiboken/basewrapper.h` (the `PyBaseWrapper` record, its
accessor macros and the `PyBaseWrapper_Dealloc` template) and of
`SliderPlugin` from `accessibilitypluginsnippet.cpp`.

Pointers are addresses (`Nat`); a nullable pointer is an `Option`, except `cptr`, a
`void*` kept as its address, whose null value is the address 0.  The one-bit
bit-fields of `PyBaseWrapper` are `Nat` fields and every store into one of them keeps
the value modulo 2.  The calls that `PyBaseWrapper_Dealloc` makes into other
translation units are recorded, in order, in a list of `Call`s.
-/

namespace Shiboken

/-- Struct used to store information about object parent and children
(`basewrapper.h`, `ShiboParentInfo`): the parent pointer, null by default, and the
list of children. -/
structure ShiboParentInfo where
  parent : Option Nat
  children : List Nat
deriving DecidableEq, Repr

/-- Base Python object for all the wrapped C++ classes (`basewrapper.h`,
`PyBaseWrapper`), without the `PyObject_HEAD`. -/
structure PyBaseWrapper where
  cptr : Nat
  hasOwnership : Nat
  containsCppWrapper : Nat
  validCppObject : Nat
  parentInfo : Option ShiboParentInfo
deriving DecidableEq, Repr

/-- Macro `PyBaseWrapper_cptr(pyobj)`. -/
def PyBaseWrapper_cptr (pyobj : PyBaseWrapper) : Nat := pyobj.cptr

/-- Macro `PyBaseWrapper_setCptr(pyobj,c)`. -/
def PyBaseWrapper_setCptr (pyobj : PyBaseWrapper) (c : Nat) : PyBaseWrapper :=
  { pyobj with cptr := c }

/-- Macro `PyBaseWrapper_hasOwnership(pyobj)`. -/
def PyBaseWrapper_hasOwnership (pyobj : PyBaseWrapper) : Nat := pyobj.hasOwnership

/-- Macro `PyBaseWrapper_setOwnership(pyobj,o)`: a store into a one-bit field. -/
def PyBaseWrapper_setOwnership (pyobj : PyBaseWrapper) (o : Nat) : PyBaseWrapper :=
  { pyobj with hasOwnership := o % 2 }

/-- Macro `PyBaseWrapper_hasParentInfo(pyobj)`: the `parentInfo` pointer itself. -/
def PyBaseWrapper_hasParentInfo (pyobj : PyBaseWrapper) : Option ShiboParentInfo :=
  pyobj.parentInfo

/-- Macro `PyBaseWrapper_containsCppWrapper(pyobj)`. -/
def PyBaseWrapper_containsCppWrapper (pyobj : PyBaseWrapper) : Nat :=
  pyobj.containsCppWrapper

/-- Macro `PyBaseWrapper_setContainsCppWrapper(pyobj,o)`: a store into a one-bit field. -/
def PyBaseWrapper_setContainsCppWrapper (pyobj : PyBaseWrapper) (o : Nat) : PyBaseWrapper :=
  { pyobj with containsCppWrapper := o % 2 }

/-- Macro `PyBaseWrapper_validCppObject(pyobj)`. -/
def PyBaseWrapper_validCppObject (pyobj : PyBaseWrapper) : Nat := pyobj.validCppObject

/-- Macro `PyBaseWrapper_setValidCppObject(pyobj,v)`: a store into a one-bit field. -/
def PyBaseWrapper_setValidCppObject (pyobj : PyBaseWrapper) (v : Nat) : PyBaseWrapper :=
  { pyobj with validCppObject := v % 2 }

/-- The calls `PyBaseWrapper_Dealloc` makes out of the header, with their arguments:
`BindingManager::instance().releaseWrapper(self)`, the destruction of the native object
at `cptr` by `delete ((T*) cptr)`, `destroyParentInfo(obj, removeFromParent)` and
`Py_TYPE(self)->tp_free(self)`. -/
inductive Call where
  | releaseWrapper (self : Nat)
  | deleteCptr (cptr : Nat)
  | destroyParentInfo (obj : Nat) (removeFromParent : Bool)
  | tp_free (self : Nat)
deriving DecidableEq, Repr

/-- The delete-expression `delete ((T*) p)`: it destroys the object at `p` and frees its
storage; on a null pointer it does nothing. -/
def deleteExpr (p : Nat) : List Call :=
  if p ≠ 0 then [Call.deleteCptr p] else []

/-- Template `PyBaseWrapper_Dealloc<T>(self)`: `self` is the address of the wrapper and
`w` the record stored there.  The result is the sequence of calls made, in program
order.  `destroyParentInfo` is called with one argument, so `removeFromParent` takes
its declared default `true`. -/
def PyBaseWrapper_Dealloc (self : Nat) (w : PyBaseWrapper) : List Call :=
  [Call.releaseWrapper self]
    ++ (if PyBaseWrapper_hasOwnership w ≠ 0 then deleteExpr (PyBaseWrapper_cptr w) else [])
    ++ (if (PyBaseWrapper_hasParentInfo w).isSome then [Call.destroyParentInfo self true] else [])
    ++ [Call.tp_free self]

/-- Whether a call is the destruction of a native object. -/
def Call.isDelete : Call → Bool
  | Call.deleteCptr _ => true
  | _ => false

/-- Whether a call is a call of `destroyParentInfo`. -/
def Call.isDestroyParentInfo : Call → Bool
  | Call.destroyParentInfo _ _ => true
  | _ => false

/-- Whether a call is a call of `tp_free`. -/
def Call.isFree : Call → Bool
  | Call.tp_free _ => true
  | _ => false

/-- In the sequence `l`, the first occurrence of `a` is followed, later on, by `b`. -/
def happensBefore (a b : Call) : List Call → Bool
  | [] => false
  | x :: xs => if x = a then decide (b ∈ xs) else happensBefore a b xs

/-- The operations the header exposes on a wrapper: the nine accessor macros and
`PyBaseWrapper_Dealloc` (for the wrapper at address `self`). -/
inductive WrapperOp where
  | cptr
  | setCptr (c : Nat)
  | hasOwnership
  | setOwnership (o : Nat)
  | hasParentInfo
  | containsCppWrapper
  | setContainsCppWrapper (o : Nat)
  | validCppObject
  | setValidCppObject (v : Nat)
  | dealloc (self : Nat)
deriving DecidableEq, Repr

/-- A wrapper together with the log of calls made out of the header so far. -/
structure World where
  wrapper : PyBaseWrapper
  calls : List Call
deriving DecidableEq, Repr

/-- One operation of the header on the wrapper.  The reading macros change nothing, the
setters store into their field, and `PyBaseWrapper_Dealloc`, whose body assigns no
field of the wrapper, appends its calls to the log. -/
def WrapperOp.step (op : WrapperOp) (s : World) : World :=
  match op with
  | WrapperOp.cptr => s
  | WrapperOp.setCptr c => { s with wrapper := PyBaseWrapper_setCptr s.wrapper c }
  | WrapperOp.hasOwnership => s
  | WrapperOp.setOwnership o => { s with wrapper := PyBaseWrapper_setOwnership s.wrapper o }
  | WrapperOp.hasParentInfo => s
  | WrapperOp.containsCppWrapper => s
  | WrapperOp.setContainsCppWrapper o =>
      { s with wrapper := PyBaseWrapper_setContainsCppWrapper s.wrapper o }
  | WrapperOp.validCppObject => s
  | WrapperOp.setValidCppObject v =>
      { s with wrapper := PyBaseWrapper_setValidCppObject s.wrapper v }
  | WrapperOp.dealloc self => { s with calls := s.calls ++ PyBaseWrapper_Dealloc self s.wrapper }

/-- The Python error indicator: either clear or holding an exception type. -/
inductive PyErr where
  | RuntimeError
deriving DecidableEq, Repr

/-- Modelled from the spec: the body of `cppObjectIsInvalid`, which `basewrapper.h` only
declares.  Its documentation there reads "Returns true and sets a Python RuntimeError
if the Python wrapper is not marked as valid"; the spec asks that a wrapper whose
validity flag is false raises a host-visible error.  The second component is the error
indicator after the call, `err` being the indicator before it. -/
def cppObjectIsInvalid (wrapper : PyBaseWrapper) (err : Option PyErr) : Bool × Option PyErr :=
  if PyBaseWrapper_validCppObject wrapper ≠ 0 then (false, err)
  else (true, some PyErr.RuntimeError)

end Shiboken

/-- The part of `QObject` the plugin reads: the answer of `isWidgetType()`. -/
structure QObject where
  isWidgetType : Bool
deriving DecidableEq, Repr

/-- The object built by `new AccessibleSlider(classname, static_cast<QWidget *>(object))`;
the class itself is not part of the snippet, only its constructor arguments are kept. -/
structure AccessibleSlider where
  classname : String
  widget : QObject
deriving DecidableEq, Repr

namespace SliderPlugin

/-- Snippet `SliderPlugin::keys`: `QStringList() << "QSlider"`. -/
def keys : List String := [] ++ ["QSlider"]

/-- Snippet `SliderPlugin::create`: `object` is a nullable pointer and the result is
the `QAccessibleInterface` pointer, null when nothing was created. -/
def create (classname : String) (object : Option QObject) : Option AccessibleSlider :=
  let iface : Option AccessibleSlider := none
  match object with
  | some o =>
      if classname = "QSlider" ∧ o.isWidgetType = true then some ⟨classname, o⟩ else iface
  | none => iface

end SliderPlugin

namespace Shiboken

/-! ## Ownership tree

`basewrapper.h` declares `setParent`, `removeParent`, `destroyParentInfo` and
`cppObjectIsInvalid` without their bodies.  The tree below is the state `setParent` and
`removeParent` work on: the `ShiboParentInfo` of each wrapper, found by the address of
the wrapper. -/

/-- The ownership tree: the parent-info node of every wrapper that has one, keyed by the
address of the wrapper.  A wrapper without an entry has a null `parentInfo`. -/
abbrev OwnershipTree := List (Nat × ShiboParentInfo)

/-- The parent-info node of wrapper `w`, if it has one. -/
def nodeOf : OwnershipTree → Nat → Option ShiboParentInfo
  | [], _ => none
  | (k, n) :: rest, w => if k = w then some n else nodeOf rest w

/-- The parent of wrapper `w`; none for a root and for a wrapper without node. -/
def parentOf (t : OwnershipTree) (w : Nat) : Option Nat :=
  match nodeOf t w with
  | some n => n.parent
  | none => none

/-- The children of wrapper `w`, in insertion order; empty for a wrapper without node. -/
def childrenOf (t : OwnershipTree) (w : Nat) : List Nat :=
  match nodeOf t w with
  | some n => n.children
  | none => []

/-- Store node `n` for wrapper `w`, creating the entry when the wrapper had none. -/
def setNode : OwnershipTree → Nat → ShiboParentInfo → OwnershipTree
  | [], w, n => [(w, n)]
  | (k, m) :: rest, w, n => if k = w then (k, n) :: rest else (k, m) :: setNode rest w n

/-- Replace the children list of `w`, keeping its parent. -/
def setChildren (t : OwnershipTree) (w : Nat) (cs : List Nat) : OwnershipTree :=
  setNode t w ⟨parentOf t w, cs⟩

/-- Replace the parent pointer of `w`, keeping its children. -/
def setParentField (t : OwnershipTree) (w : Nat) (p : Option Nat) : OwnershipTree :=
  setNode t w ⟨p, childrenOf t w⟩

/-- Remove `child` from the children list of its current parent, if it has one. -/
def removeFromSiblings (t : OwnershipTree) (child : Nat) : OwnershipTree :=
  match parentOf t child with
  | none => t
  | some p => setChildren t p ((childrenOf t p).filter (fun c => c ≠ child))

/-- Detach `child` from any existing parent: it leaves the children list of that parent
and becomes a root.  Nothing is touched when it has no parent. -/
def detach (t : OwnershipTree) (child : Nat) : OwnershipTree :=
  match parentOf t child with
  | none => t
  | some _ => setParentField (removeFromSiblings t child) child none

/-- Whether `x` is in `frontier` or can be reached from it by following children lists
for at most `fuel` further levels. -/
def reaches (t : OwnershipTree) : Nat → List Nat → Nat → Bool
  | 0, frontier, x => decide (x ∈ frontier)
  | fuel + 1, frontier, x =>
      decide (x ∈ frontier) || reaches t fuel ((frontier.map (childrenOf t)).flatten) x

/-- Whether `x` is a descendant of `ancestor`: a child, or a child of a child, and so on.
The search goes as many levels deep as the tree has nodes, which is deep enough to find
every descendant (`isDescendant_iff`). -/
def isDescendant (t : OwnershipTree) (x ancestor : Nat) : Bool :=
  reaches t t.length (childrenOf t ancestor) x

/-- The descendants of a wrapper: `Descendant t x a` holds when `x` is a child of `a` or a
descendant of a child of `a`. -/
inductive Descendant (t : OwnershipTree) : Nat → Nat → Prop where
  | child {x a : Nat} : x ∈ childrenOf t a → Descendant t x a
  | through {x y a : Nat} : y ∈ childrenOf t a → Descendant t x y → Descendant t x a

/-- A walk down the tree: from `v`, each wrapper of `l` is a child of the one before, and
the walk ends at `x`. -/
def Walk (t : OwnershipTree) : Nat → List Nat → Nat → Prop
  | v, [], x => v = x
  | v, y :: l, x => y ∈ childrenOf t v ∧ Walk t y l x

/-- The failure of `setParent`. -/
inductive TreeError where
  | CycleDetected
deriving DecidableEq, Repr

deriving instance DecidableEq for Except

/-- Modelled from the spec: the body of `setParent`, which `basewrapper.h` only declares
("Set the parent of child to parent ... if null, the child will have no parents").  By
the spec: if `parent` is null, detaches `child` from any existing parent; otherwise
removes `child` from its current parent's children if any, appends `child` to
`parent`'s children and records `parent` as `child`'s parent; fails with
`CycleDetected`, changing nothing, if `parent` is already a descendant of `child`.
The tree holds the parent and the children of each wrapper and nothing else: the
wrappers are taken to be live, their validity flag is not part of the tree. -/
def setParent (t : OwnershipTree) (parent : Option Nat) (child : Nat) :
    Except TreeError OwnershipTree :=
  match parent with
  | none => Except.ok (detach t child)
  | some p =>
      if isDescendant t p child then Except.error TreeError.CycleDetected
      else
        let t1 := removeFromSiblings t child
        let t2 := setChildren t1 p (childrenOf t1 p ++ [child])
        Except.ok (setParentField t2 child (some p))

/-- Modelled from the spec: the body of `removeParent`, which `basewrapper.h` only
declares ("Remove this child from their parent, if any").  It returns nothing and
cannot fail: the child leaves the children list of its parent and loses its parent. -/
def removeParent (t : OwnershipTree) (child : Nat) : OwnershipTree :=
  match parentOf t child with
  | none => t
  | some p =>
      setParentField (setChildren t p ((childrenOf t p).filter (fun c => c ≠ child))) child none

/-- The tree after a call that started on `t`: the new tree when the call succeeded, `t`
itself when it failed. -/
def treeAfter (t : OwnershipTree) (r : Except TreeError OwnershipTree) : OwnershipTree :=
  match r with
  | Except.ok t1 => t1
  | Except.error _ => t

/-- The data-model invariant of the tree: a wrapper listed among the children of `p` has
`p` as its recorded parent (so it is in the children list of at most one wrapper). -/
def WF (t : OwnershipTree) : Prop :=
  ∀ e ∈ t, ∀ c ∈ childrenOf t e.1, parentOf t c = some e.1

instance (t : OwnershipTree) : Decidable (WF t) := by
  unfold WF
  infer_instance

end Shiboken

namespace Shiboken

/-! ## Deallocation -/

/-- The calls of `PyBaseWrapper_Dealloc`, by the two tests it makes. -/
theorem dealloc_cases (self : Nat) (w : PyBaseWrapper) :
    PyBaseWrapper_Dealloc self w =
      Call.releaseWrapper self ::
        ((if w.hasOwnership ≠ 0 ∧ w.cptr ≠ 0 then [Call.deleteCptr w.cptr] else [])
          ++ ((if w.parentInfo.isSome then [Call.destroyParentInfo self true] else [])
            ++ [Call.tp_free self])) := by
  by_cases ho : w.hasOwnership = 0 <;> by_cases hc : w.cptr = 0 <;>
    simp [PyBaseWrapper_Dealloc, deleteExpr, PyBaseWrapper_hasOwnership, PyBaseWrapper_cptr,
      PyBaseWrapper_hasParentInfo, ho, hc]

/-- C1: finalizing a wrapper whose `hasOwnership` is false makes no `delete` call at
all, and it does call `releaseWrapper` for that wrapper. -/
theorem C1_dealloc_not_owning (self : Nat) (w : PyBaseWrapper) (h : w.hasOwnership = 0) :
    (∀ c ∈ PyBaseWrapper_Dealloc self w, c.isDelete = false)
      ∧ Call.releaseWrapper self ∈ PyBaseWrapper_Dealloc self w := by
  rw [dealloc_cases]
  cases hp : w.parentInfo <;> simp [h, Call.isDelete]

/-- C1 at a wrapper with parent info that does not own its native object. -/
theorem C1_dealloc_not_owning_witness :
    (∀ c ∈ PyBaseWrapper_Dealloc 7 ⟨100, 0, 0, 1, some ⟨none, [8]⟩⟩, c.isDelete = false)
      ∧ Call.releaseWrapper 7 ∈ PyBaseWrapper_Dealloc 7 ⟨100, 0, 0, 1, some ⟨none, [8]⟩⟩ :=
  C1_dealloc_not_owning 7 ⟨100, 0, 0, 1, some ⟨none, [8]⟩⟩ rfl

/-- C2, as stated, fails: a wrapper that is marked invalid (`validCppObject = 0`) and
owns its native object still has that object deleted by `PyBaseWrapper_Dealloc`. -/
theorem C2_invalid_owning_is_deleted :
    (⟨100, 1, 0, 0, none⟩ : PyBaseWrapper).validCppObject = 0
      ∧ Call.deleteCptr 100 ∈ PyBaseWrapper_Dealloc 7 ⟨100, 1, 0, 0, none⟩ := by
  decide

/-- C2, amended: `PyBaseWrapper_Dealloc` destroys the native object at `cptr` exactly once
when `hasOwnership` is set and `cptr` is not null, and destroys nothing when
`hasOwnership` is clear or `cptr` is null; the validity flag plays no part: storing any
value into `validCppObject` leaves the calls of the deallocation unchanged. -/
theorem C2_delete_iff_ownership (self : Nat) (w : PyBaseWrapper) :
    (PyBaseWrapper_Dealloc self w).countP Call.isDelete
        = (if w.hasOwnership ≠ 0 ∧ w.cptr ≠ 0 then 1 else 0)
      ∧ (PyBaseWrapper_Dealloc self w).count (Call.deleteCptr w.cptr)
        = (if w.hasOwnership ≠ 0 ∧ w.cptr ≠ 0 then 1 else 0)
      ∧ ∀ v : Nat, PyBaseWrapper_Dealloc self (PyBaseWrapper_setValidCppObject w v)
          = PyBaseWrapper_Dealloc self w := by
  refine ⟨?_, ?_, ?_⟩
  · rw [dealloc_cases]
    cases hp : w.parentInfo <;> by_cases ho : w.hasOwnership = 0 <;>
      by_cases hc : w.cptr = 0 <;> simp [ho, hc, Call.isDelete, List.countP_cons]
  · rw [dealloc_cases]
    cases hp : w.parentInfo <;> by_cases ho : w.hasOwnership = 0 <;>
      by_cases hc : w.cptr = 0 <;> simp [ho, hc, List.count_cons]
  · intro v
    simp [PyBaseWrapper_Dealloc, PyBaseWrapper_setValidCppObject, PyBaseWrapper_hasOwnership,
      PyBaseWrapper_cptr, PyBaseWrapper_hasParentInfo]

/-- The deallocation of an owning wrapper whose `cptr` is null destroys nothing: the
wrapper is released from the registry and its storage freed. -/
theorem dealloc_null_cptr :
    PyBaseWrapper_Dealloc 7 ⟨0, 1, 0, 1, none⟩ = [Call.releaseWrapper 7, Call.tp_free 7] := by
  decide

/-- C3, as stated, fails: for a wrapper with parent info, `destroyParentInfo` does not
come before `releaseWrapper` in the calls of `PyBaseWrapper_Dealloc`. -/
theorem C3_destroy_not_before_release :
    (⟨100, 0, 0, 1, some ⟨none, []⟩⟩ : PyBaseWrapper).parentInfo ≠ none
      ∧ happensBefore (Call.destroyParentInfo 7 true) (Call.releaseWrapper 7)
          (PyBaseWrapper_Dealloc 7 ⟨100, 0, 0, 1, some ⟨none, []⟩⟩) = false := by
  decide

/-- C3, amended: in every run of `PyBaseWrapper_Dealloc` on a wrapper that has parent
info, the wrapper is removed from the binding registry (`releaseWrapper`) first and the
ownership-tree teardown (`destroyParentInfo`) comes after it, never the other way
round. -/
theorem C3_release_before_destroy (self : Nat) (w : PyBaseWrapper)
    (h : w.parentInfo ≠ none) :
    happensBefore (Call.releaseWrapper self) (Call.destroyParentInfo self true)
        (PyBaseWrapper_Dealloc self w) = true
      ∧ happensBefore (Call.destroyParentInfo self true) (Call.releaseWrapper self)
        (PyBaseWrapper_Dealloc self w) = false := by
  rw [dealloc_cases]
  cases hp : w.parentInfo with
  | none => exact absurd hp h
  | some n =>
    by_cases ho : w.hasOwnership = 0 <;> by_cases hc : w.cptr = 0 <;>
      simp [ho, hc, happensBefore]

/-- C3, amended, at an owning wrapper with parent info. -/
theorem C3_release_before_destroy_witness :
    happensBefore (Call.releaseWrapper 7) (Call.destroyParentInfo 7 true)
        (PyBaseWrapper_Dealloc 7 ⟨100, 1, 0, 1, some ⟨some 3, [8, 9]⟩⟩) = true
      ∧ happensBefore (Call.destroyParentInfo 7 true) (Call.releaseWrapper 7)
        (PyBaseWrapper_Dealloc 7 ⟨100, 1, 0, 1, some ⟨some 3, [8, 9]⟩⟩) = false :=
  C3_release_before_destroy 7 ⟨100, 1, 0, 1, some ⟨some 3, [8, 9]⟩⟩ (by decide)

/-- C8: `PyBaseWrapper_Dealloc` calls `destroyParentInfo` (for this wrapper, with
`removeFromParent = true`, and in no other way) if and only if `parentInfo` is not null,
and in every case its last call is `tp_free` on the wrapper, made exactly once. -/
theorem C8_dealloc_parent_info_and_free (self : Nat) (w : PyBaseWrapper) :
    (Call.destroyParentInfo self true ∈ PyBaseWrapper_Dealloc self w ↔ w.parentInfo ≠ none)
      ∧ (PyBaseWrapper_Dealloc self w).countP Call.isDestroyParentInfo
          = (PyBaseWrapper_Dealloc self w).count (Call.destroyParentInfo self true)
      ∧ (PyBaseWrapper_Dealloc self w).getLast? = some (Call.tp_free self)
      ∧ (PyBaseWrapper_Dealloc self w).countP Call.isFree = 1
      ∧ (PyBaseWrapper_Dealloc self w).count (Call.tp_free self) = 1 := by
  rw [dealloc_cases]
  cases hp : w.parentInfo <;> by_cases ho : w.hasOwnership = 0 <;>
    by_cases hc : w.cptr = 0 <;>
    simp [ho, hc, Call.isDestroyParentInfo, Call.isFree, List.countP_cons, List.count_cons,
      List.getLast?_cons_cons]

/-! ## Accessor macros -/

/-- C9: each of the three flag setters stores its argument modulo 2 (so 2 reads back as
0) and leaves `cptr`, the two other flags and `parentInfo` as they were. -/
theorem C9_flag_setters_one_bit (w : PyBaseWrapper) (v : Nat) :
    (PyBaseWrapper_hasOwnership (PyBaseWrapper_setOwnership w v) = v % 2
        ∧ PyBaseWrapper_hasOwnership (PyBaseWrapper_setOwnership w 2) = 0
        ∧ (PyBaseWrapper_setOwnership w v).cptr = w.cptr
        ∧ (PyBaseWrapper_setOwnership w v).containsCppWrapper = w.containsCppWrapper
        ∧ (PyBaseWrapper_setOwnership w v).validCppObject = w.validCppObject
        ∧ (PyBaseWrapper_setOwnership w v).parentInfo = w.parentInfo)
      ∧ (PyBaseWrapper_containsCppWrapper (PyBaseWrapper_setContainsCppWrapper w v) = v % 2
        ∧ PyBaseWrapper_containsCppWrapper (PyBaseWrapper_setContainsCppWrapper w 2) = 0
        ∧ (PyBaseWrapper_setContainsCppWrapper w v).cptr = w.cptr
        ∧ (PyBaseWrapper_setContainsCppWrapper w v).hasOwnership = w.hasOwnership
        ∧ (PyBaseWrapper_setContainsCppWrapper w v).validCppObject = w.validCppObject
        ∧ (PyBaseWrapper_setContainsCppWrapper w v).parentInfo = w.parentInfo)
      ∧ (PyBaseWrapper_validCppObject (PyBaseWrapper_setValidCppObject w v) = v % 2
        ∧ PyBaseWrapper_validCppObject (PyBaseWrapper_setValidCppObject w 2) = 0
        ∧ (PyBaseWrapper_setValidCppObject w v).cptr = w.cptr
        ∧ (PyBaseWrapper_setValidCppObject w v).hasOwnership = w.hasOwnership
        ∧ (PyBaseWrapper_setValidCppObject w v).containsCppWrapper = w.containsCppWrapper
        ∧ (PyBaseWrapper_setValidCppObject w v).parentInfo = w.parentInfo) := by
  simp [PyBaseWrapper_hasOwnership, PyBaseWrapper_setOwnership,
    PyBaseWrapper_containsCppWrapper, PyBaseWrapper_setContainsCppWrapper,
    PyBaseWrapper_validCppObject, PyBaseWrapper_setValidCppObject]

/-- C4, as stated, fails: on a wrapper whose validity flag is false,
`PyBaseWrapper_setValidCppObject(w, 1)` sets the flag back to true. -/
theorem C4_setValid_revives :
    (⟨100, 1, 0, 0, none⟩ : PyBaseWrapper).validCppObject = 0
      ∧ ((WrapperOp.setValidCppObject 1).step ⟨⟨100, 1, 0, 0, none⟩, []⟩).wrapper.validCppObject
          = 1 := by
  decide

/-- C4, amended: if `validCppObject` is false before an operation of the header, it is
false after it, for every accessor macro and `PyBaseWrapper_Dealloc`, provided the
operation is not `PyBaseWrapper_setValidCppObject` with an odd argument. -/
theorem C4_valid_stays_false (op : WrapperOp) (s : World)
    (h : s.wrapper.validCppObject = 0)
    (hop : ∀ v, op = WrapperOp.setValidCppObject v → v % 2 = 0) :
    (op.step s).wrapper.validCppObject = 0 := by
  cases op <;>
    simp_all [WrapperOp.step, PyBaseWrapper_setCptr, PyBaseWrapper_setOwnership,
      PyBaseWrapper_setContainsCppWrapper, PyBaseWrapper_setValidCppObject]

/-- C4, amended, at the deallocation of an invalid wrapper. -/
theorem C4_valid_stays_false_witness :
    ((WrapperOp.dealloc 7).step ⟨⟨100, 1, 0, 0, none⟩, []⟩).wrapper.validCppObject = 0 :=
  C4_valid_stays_false (WrapperOp.dealloc 7) ⟨⟨100, 1, 0, 0, none⟩, []⟩ rfl
    (by intro v hv; cases hv)

/-- C5: `cppObjectIsInvalid` returns true exactly when `validCppObject` is false, and it
sets a `RuntimeError` exactly then; for a wrapper marked valid it returns false and
leaves the error indicator as it was. -/
theorem C5_cppObjectIsInvalid (wrapper : PyBaseWrapper) (err : Option PyErr) :
    ((cppObjectIsInvalid wrapper err).1 = true ↔ wrapper.validCppObject = 0)
      ∧ ((cppObjectIsInvalid wrapper none).2 = some PyErr.RuntimeError
          ↔ wrapper.validCppObject = 0)
      ∧ (wrapper.validCppObject = 0 ∨ cppObjectIsInvalid wrapper err = (false, err)) := by
  by_cases hv : wrapper.validCppObject = 0 <;>
    simp [cppObjectIsInvalid, PyBaseWrapper_validCppObject, hv]

end Shiboken

namespace SliderPlugin

/-- C10: `create` returns an interface if and only if the class name is "QSlider", the
object is not null and it is a widget type; `keys` is the one-element list of
"QSlider"; and a class name for which `create` returns an interface is in `keys`. -/
theorem C10_create_consistent_with_keys (classname : String) (object : Option QObject) :
    ((create classname object).isSome = true
        ↔ classname = "QSlider" ∧ ∃ o, object = some o ∧ o.isWidgetType = true)
      ∧ keys = ["QSlider"]
      ∧ ((create classname object).isSome = false ∨ classname ∈ keys) := by
  cases object with
  | none => simp [create, keys]
  | some o =>
    by_cases hc : classname = "QSlider" <;> by_cases hw : o.isWidgetType = true <;>
      simp [create, keys, hc, hw]

end SliderPlugin

namespace Shiboken

/-! ## Ownership tree -/

/-- Reading a node back after `setNode`. -/
theorem nodeOf_setNode (t : OwnershipTree) (w : Nat) (n : ShiboParentInfo) (x : Nat) :
    nodeOf (setNode t w n) x = if x = w then some n else nodeOf t x := by
  induction t with
  | nil =>
    by_cases hx : x = w
    · simp [setNode, nodeOf, hx]
    · have hx2 : ¬ w = x := fun e => hx e.symm
      simp [setNode, nodeOf, hx, hx2]
  | cons e rest ih =>
    obtain ⟨k, m⟩ := e
    by_cases hk : k = w
    · by_cases hx : x = w
      · simp [setNode, nodeOf, hk, hx]
      · have hx2 : ¬ w = x := fun e => hx e.symm
        simp [setNode, nodeOf, hk, hx, hx2]
    · by_cases hkx : k = x
      · have hx : ¬ x = w := fun e => hk (hkx.trans e)
        simp [setNode, nodeOf, hk, hkx, hx]
      · simp [setNode, nodeOf, hk, hkx, ih]

/-- A wrapper with a node has an entry in the tree. -/
theorem nodeOf_some_mem (t : OwnershipTree) (w : Nat) (n : ShiboParentInfo)
    (h : nodeOf t w = some n) : ∃ e ∈ t, e.1 = w := by
  induction t with
  | nil => simp [nodeOf] at h
  | cons e rest ih =>
    obtain ⟨k, m⟩ := e
    by_cases hk : k = w
    · exact ⟨(k, m), by simp, hk⟩
    · simp [nodeOf, hk] at h
      obtain ⟨e, he, hew⟩ := ih h
      exact ⟨e, by simp [he], hew⟩

/-- The parent pointers after `setChildren`. -/
theorem parentOf_setChildren (t : OwnershipTree) (w : Nat) (cs : List Nat) (x : Nat) :
    parentOf (setChildren t w cs) x = parentOf t x := by
  unfold setChildren
  by_cases hx : x = w
  · subst hx
    simp [parentOf, nodeOf_setNode]
  · simp [parentOf, nodeOf_setNode, hx]

/-- The children lists after `setChildren`. -/
theorem childrenOf_setChildren (t : OwnershipTree) (w : Nat) (cs : List Nat) (x : Nat) :
    childrenOf (setChildren t w cs) x = if x = w then cs else childrenOf t x := by
  unfold setChildren
  by_cases hx : x = w
  · simp [childrenOf, nodeOf_setNode, hx]
  · simp [childrenOf, nodeOf_setNode, hx]

/-- The parent pointers after `setParentField`. -/
theorem parentOf_setParentField (t : OwnershipTree) (w : Nat) (p : Option Nat) (x : Nat) :
    parentOf (setParentField t w p) x = if x = w then p else parentOf t x := by
  unfold setParentField
  by_cases hx : x = w
  · simp [parentOf, nodeOf_setNode, hx]
  · simp [parentOf, nodeOf_setNode, hx]

/-- The children lists after `setParentField`. -/
theorem childrenOf_setParentField (t : OwnershipTree) (w : Nat) (p : Option Nat) (x : Nat) :
    childrenOf (setParentField t w p) x = childrenOf t x := by
  unfold setParentField
  by_cases hx : x = w
  · subst hx
    simp [childrenOf, nodeOf_setNode]
  · simp [childrenOf, nodeOf_setNode, hx]

/-- The invariant, over all wrappers rather than over the entries of the tree. -/
theorem WF_iff (t : OwnershipTree) :
    WF t ↔ ∀ p c, c ∈ childrenOf t p → parentOf t c = some p := by
  constructor
  · intro h p c hc
    cases hn : nodeOf t p with
    | none => simp [childrenOf, hn] at hc
    | some n =>
      obtain ⟨e, he, hep⟩ := nodeOf_some_mem t p n hn
      have := h e he c (by rw [hep]; exact hc)
      rw [this, hep]
  · intro h e _ c hc
    exact h e.1 c hc

/-- The parent pointers after `removeParent`. -/
theorem parentOf_removeParent (t : OwnershipTree) (child x : Nat) :
    parentOf (removeParent t child) x = if x = child then none else parentOf t x := by
  unfold removeParent
  cases hp : parentOf t child with
  | none =>
    by_cases hx : x = child
    · simp [hx, hp]
    · simp [hx]
  | some p => simp [parentOf_setParentField, parentOf_setChildren]

/-- The children lists after `removeParent`. -/
theorem childrenOf_removeParent (t : OwnershipTree) (child x : Nat) :
    childrenOf (removeParent t child) x =
      if parentOf t child = some x then (childrenOf t x).filter (fun c => c ≠ child)
      else childrenOf t x := by
  unfold removeParent
  cases hp : parentOf t child with
  | none => simp
  | some p =>
    by_cases hx : x = p
    · simp [childrenOf_setParentField, childrenOf_setChildren, hx]
    · have hx2 : ¬ p = x := fun e => hx e.symm
      simp [childrenOf_setParentField, childrenOf_setChildren, hx, hx2]

/-- The null branch of `setParent` and `removeParent` do the same. -/
theorem detach_eq_removeParent (t : OwnershipTree) (child : Nat) :
    detach t child = removeParent t child := by
  unfold detach removeParent removeFromSiblings
  cases hp : parentOf t child <;> simp

end Shiboken

namespace Shiboken

/-- The children lists after `removeFromSiblings`. -/
theorem childrenOf_removeFromSiblings (t : OwnershipTree) (child x : Nat) :
    childrenOf (removeFromSiblings t child) x =
      if parentOf t child = some x then (childrenOf t x).filter (fun c => c ≠ child)
      else childrenOf t x := by
  unfold removeFromSiblings
  cases hp : parentOf t child with
  | none => simp
  | some p =>
    by_cases hx : x = p
    · simp [childrenOf_setChildren, hx]
    · have hx2 : ¬ p = x := fun e => hx e.symm
      simp [childrenOf_setChildren, hx, hx2]

/-- The parent pointers after `removeFromSiblings`. -/
theorem parentOf_removeFromSiblings (t : OwnershipTree) (child x : Nat) :
    parentOf (removeFromSiblings t child) x = parentOf t x := by
  unfold removeFromSiblings
  cases hp : parentOf t child with
  | none => rfl
  | some p => simp [parentOf_setChildren]

/-- What is left in a children list by `removeFromSiblings` was there before and is not
the removed child, unless the list is that of another wrapper than its parent. -/
theorem mem_childrenOf_removeFromSiblings (t : OwnershipTree) (child x c : Nat)
    (h : c ∈ childrenOf (removeFromSiblings t child) x) :
    c ∈ childrenOf t x ∧ (c = child → parentOf t child ≠ some x) := by
  rw [childrenOf_removeFromSiblings] at h
  by_cases hp : parentOf t child = some x
  · simp [hp] at h
    exact ⟨h.1, fun e => absurd e h.2⟩
  · simp [hp] at h
    exact ⟨h, fun _ => hp⟩

/-- The empty tree satisfies the invariant. -/
theorem WF_nil : WF [] := by
  intro e he
  simp at he

/-- The invariant is kept by `removeParent`. -/
theorem WF_removeParent (t : OwnershipTree) (child : Nat) (h : WF t) :
    WF (removeParent t child) := by
  rw [WF_iff] at h ⊢
  intro q c hc
  rw [childrenOf_removeParent] at hc
  rw [parentOf_removeParent]
  by_cases hp : parentOf t child = some q
  · simp [hp] at hc
    simp [hc.2, h q c hc.1]
  · simp [hp] at hc
    have hcq := h q c hc
    by_cases hcc : c = child
    · subst hcc
      exact absurd hcq hp
    · simp [hcc, hcq]

/-- The invariant is kept by a successful `setParent`. -/
theorem WF_setParent (t t' : OwnershipTree) (parent : Option Nat) (child : Nat) (h : WF t)
    (hs : setParent t parent child = Except.ok t') : WF t' := by
  cases parent with
  | none =>
    simp [setParent, detach_eq_removeParent] at hs
    rw [← hs]
    exact WF_removeParent t child h
  | some p =>
    unfold setParent at hs
    by_cases hd : isDescendant t p child = true
    · simp [hd] at hs
    · simp [hd] at hs
      rw [← hs, WF_iff]
      rw [WF_iff] at h
      intro q c hc
      rw [childrenOf_setParentField, childrenOf_setChildren] at hc
      rw [parentOf_setParentField, parentOf_setChildren, parentOf_removeFromSiblings]
      by_cases hcc : c = child
      · subst hcc
        by_cases hq : q = p
        · simp [hq]
        · simp [hq] at hc
          have hm := mem_childrenOf_removeFromSiblings t c q c hc
          exact absurd (h q c hm.1) (hm.2 rfl)
      · by_cases hq : q = p
        · simp [hq, hcc] at hc
          have hm := mem_childrenOf_removeFromSiblings t child p c hc
          simp [hcc, hq, h p c hm.1]
        · simp [hq] at hc
          have hm := mem_childrenOf_removeFromSiblings t child q c hc
          simp [hcc, h q c hm.1]

/-- C6: on a tree that satisfies the data-model invariant, `setParent(null, child)`
succeeds with the tree `removeParent(child)` yields; in it `child` has no parent and is
in the children list of no wrapper; and the tree is unchanged when `child` had no
parent. -/
theorem C6_removeParent_is_setParent_null (t : OwnershipTree) (child : Nat) (h : WF t) :
    setParent t none child = Except.ok (removeParent t child)
      ∧ parentOf (removeParent t child) child = none
      ∧ (∀ w, child ∉ childrenOf (removeParent t child) w)
      ∧ (parentOf t child = none → removeParent t child = t) := by
  refine ⟨?_, ?_, ?_, ?_⟩
  · simp [setParent, detach_eq_removeParent]
  · simp [parentOf_removeParent]
  · intro w hw
    rw [childrenOf_removeParent] at hw
    by_cases hp : parentOf t child = some w
    · simp [hp] at hw
    · simp [hp] at hw
      exact hp ((WF_iff t).1 h w child hw)
  · intro hp
    simp [removeParent, hp]

/-- C6 at the tree in which wrapper 1 is the parent of wrappers 2 and 3. -/
theorem C6_removeParent_is_setParent_null_witness :
    setParent [(1, ⟨none, [2, 3]⟩), (2, ⟨some 1, []⟩), (3, ⟨some 1, []⟩)] none 2
        = Except.ok (removeParent [(1, ⟨none, [2, 3]⟩), (2, ⟨some 1, []⟩), (3, ⟨some 1, []⟩)] 2)
      ∧ parentOf (removeParent [(1, ⟨none, [2, 3]⟩), (2, ⟨some 1, []⟩), (3, ⟨some 1, []⟩)] 2) 2
        = none
      ∧ (∀ w, 2 ∉ childrenOf
          (removeParent [(1, ⟨none, [2, 3]⟩), (2, ⟨some 1, []⟩), (3, ⟨some 1, []⟩)] 2) w)
      ∧ (parentOf [(1, ⟨none, [2, 3]⟩), (2, ⟨some 1, []⟩), (3, ⟨some 1, []⟩)] 2 = none →
          removeParent [(1, ⟨none, [2, 3]⟩), (2, ⟨some 1, []⟩), (3, ⟨some 1, []⟩)] 2
            = [(1, ⟨none, [2, 3]⟩), (2, ⟨some 1, []⟩), (3, ⟨some 1, []⟩)]) :=
  C6_removeParent_is_setParent_null
    [(1, ⟨none, [2, 3]⟩), (2, ⟨some 1, []⟩), (3, ⟨some 1, []⟩)] 2 (by decide)

/-- After a successful `setParent(parent, child)`, `child` is among the children of
`parent`. -/
theorem mem_childrenOf_setParent (t t' : OwnershipTree) (p child : Nat)
    (hs : setParent t (some p) child = Except.ok t') : child ∈ childrenOf t' p := by
  unfold setParent at hs
  by_cases hd : isDescendant t p child = true
  · simp [hd] at hs
  · simp [hd] at hs
    rw [← hs, childrenOf_setParentField, childrenOf_setChildren]
    simp

/-- A wrapper in the frontier is found whatever the fuel. -/
theorem reaches_of_mem (t : OwnershipTree) (fuel : Nat) (frontier : List Nat) (x : Nat)
    (h : x ∈ frontier) : reaches t fuel frontier x = true := by
  cases fuel <;> simp [reaches, h]

/-- C7: after a successful `setParent(A, B)`, the call `setParent(B, A)` fails with
`CycleDetected`, and the tree after the failed call has the parent and the children
list of every wrapper as before it. -/
theorem C7_setParent_rejects_cycle (t t' : OwnershipTree) (A B : Nat)
    (h : setParent t (some A) B = Except.ok t') :
    setParent t' (some B) A = Except.error TreeError.CycleDetected
      ∧ ∀ w, parentOf (treeAfter t' (setParent t' (some B) A)) w = parentOf t' w
          ∧ childrenOf (treeAfter t' (setParent t' (some B) A)) w = childrenOf t' w := by
  have hm := mem_childrenOf_setParent t t' A B h
  have hd : isDescendant t' B A = true := reaches_of_mem t' _ _ B hm
  have he : setParent t' (some B) A = Except.error TreeError.CycleDetected := by
    simp [setParent, hd]
  refine ⟨he, ?_⟩
  intro w
  rw [he]
  exact ⟨rfl, rfl⟩

/-- C7 at the tree in which wrapper 1 is the parent of wrappers 3 and 5: wrapper 3 is
moved under wrapper 2 and then asked to become the parent of wrapper 2. -/
theorem C7_setParent_rejects_cycle_witness :
    setParent [(1, ⟨none, [5]⟩), (3, ⟨some 2, []⟩), (5, ⟨some 1, []⟩), (2, ⟨none, [3]⟩)] (some 3) 2 = Except.error TreeError.CycleDetected
      ∧ ∀ w, parentOf (treeAfter [(1, ⟨none, [5]⟩), (3, ⟨some 2, []⟩), (5, ⟨some 1, []⟩), (2, ⟨none, [3]⟩)]
            (setParent [(1, ⟨none, [5]⟩), (3, ⟨some 2, []⟩), (5, ⟨some 1, []⟩), (2, ⟨none, [3]⟩)] (some 3) 2)) w
            = parentOf [(1, ⟨none, [5]⟩), (3, ⟨some 2, []⟩), (5, ⟨some 1, []⟩), (2, ⟨none, [3]⟩)] w
          ∧ childrenOf (treeAfter [(1, ⟨none, [5]⟩), (3, ⟨some 2, []⟩), (5, ⟨some 1, []⟩), (2, ⟨none, [3]⟩)]
            (setParent [(1, ⟨none, [5]⟩), (3, ⟨some 2, []⟩), (5, ⟨some 1, []⟩), (2, ⟨none, [3]⟩)] (some 3) 2)) w
            = childrenOf [(1, ⟨none, [5]⟩), (3, ⟨some 2, []⟩), (5, ⟨some 1, []⟩), (2, ⟨none, [3]⟩)] w :=
  C7_setParent_rejects_cycle
    [(1, ⟨none, [3, 5]⟩), (3, ⟨some 1, []⟩), (5, ⟨some 1, []⟩)]
    [(1, ⟨none, [5]⟩), (3, ⟨some 2, []⟩), (5, ⟨some 1, []⟩), (2, ⟨none, [3]⟩)] 2 3 (by decide)

/-! ## The descendant search finds every descendant -/

/-- What `reaches` computes: a walk of at most `fuel` steps from the frontier to `x`. -/
theorem reaches_iff (t : OwnershipTree) (fuel : Nat) (frontier : List Nat) (x : Nat) :
    reaches t fuel frontier x = true
      ↔ ∃ v ∈ frontier, ∃ l : List Nat, l.length ≤ fuel ∧ Walk t v l x := by
  induction fuel generalizing frontier with
  | zero =>
    constructor
    · intro h
      simp [reaches] at h
      exact ⟨x, h, [], by simp, rfl⟩
    · rintro ⟨v, hv, l, hl, hw⟩
      have hnil : l = [] := List.length_eq_zero.mp (Nat.le_zero.mp hl)
      subst hnil
      simp only [Walk] at hw
      subst hw
      simp [reaches, hv]
  | succ n ih =>
    constructor
    · intro h
      simp only [reaches, Bool.or_eq_true, decide_eq_true_eq] at h
      rcases h with h | h
      · exact ⟨x, h, [], by simp, rfl⟩
      · obtain ⟨y, hy, l, hl, hw⟩ := (ih _).1 h
        simp only [List.mem_flatten, List.mem_map] at hy
        obtain ⟨cs, ⟨v, hv, hcs⟩, hycs⟩ := hy
        subst hcs
        exact ⟨v, hv, y :: l, by simpa using hl, hycs, hw⟩
    · rintro ⟨v, hv, l, hl, hw⟩
      simp only [reaches, Bool.or_eq_true, decide_eq_true_eq]
      cases l with
      | nil =>
        simp only [Walk] at hw
        subst hw
        exact Or.inl hv
      | cons y l =>
        right
        refine (ih _).2 ⟨y, ?_, l, by simpa using hl, hw.2⟩
        simp only [List.mem_flatten, List.mem_map]
        exact ⟨childrenOf t v, ⟨v, hv, rfl⟩, hw.1⟩

/-- A descendant is the end of a walk of at least one step. -/
theorem descendant_iff_walk (t : OwnershipTree) (x a : Nat) :
    Descendant t x a ↔ ∃ l : List Nat, l ≠ [] ∧ Walk t a l x := by
  constructor
  · intro h
    induction h with
    | child hc => exact ⟨[_], by simp, hc, rfl⟩
    | through hy _ ih =>
      obtain ⟨l, _, hw⟩ := ih
      exact ⟨_ :: l, by simp, hy, hw⟩
  · rintro ⟨l, hl, hw⟩
    induction l generalizing a with
    | nil => exact absurd rfl hl
    | cons y l ih =>
      cases l with
      | nil =>
        simp only [Walk] at hw
        obtain ⟨hy, hyx⟩ := hw
        subst hyx
        exact Descendant.child hy
      | cons z l =>
        exact Descendant.through hw.1 (ih y (by simp) hw.2)

/-- The rest of a walk, from one of the wrappers it passes. -/
theorem walk_suffix (t : OwnershipTree) (v : Nat) (s : List Nat) (a : Nat) (r : List Nat)
    (x : Nat) (h : Walk t v (s ++ a :: r) x) : Walk t a r x := by
  induction s generalizing v with
  | nil => exact h.2
  | cons y s ih => exact ih y h.2

/-- Every wrapper of a walk but the last has a node in the tree. -/
theorem walk_inner_mem_keys (t : OwnershipTree) (v : Nat) (l : List Nat) (x : Nat)
    (h : Walk t v l x) : ∀ u ∈ (v :: l).dropLast, u ∈ t.map Prod.fst := by
  induction l generalizing v with
  | nil => simp
  | cons y l ih =>
    intro u hu
    rw [List.dropLast_cons₂, List.mem_cons] at hu
    rcases hu with hu | hu
    · subst hu
      cases hn : nodeOf t u with
      | none =>
        have := h.1
        simp [childrenOf, hn] at this
      | some n =>
        obtain ⟨e, he, heu⟩ := nodeOf_some_mem t u n hn
        exact List.mem_map.2 ⟨e, he, heu⟩
    · exact ih y h.2 u hu

/-- A walk can be replaced by one that passes no wrapper twice before its end. -/
theorem walk_nodup (t : OwnershipTree) (v : Nat) (l : List Nat) (x : Nat) (hl : l ≠ [])
    (h : Walk t v l x) :
    ∃ l2 : List Nat, l2 ≠ [] ∧ Walk t v l2 x ∧ ((v :: l2).dropLast).Nodup := by
  induction l generalizing v with
  | nil => exact absurd rfl hl
  | cons y l ih =>
    cases l with
    | nil => exact ⟨[y], by simp, h, by simp⟩
    | cons z l =>
      obtain ⟨l2, hl2, hw2, hnd⟩ := ih y (by simp) h.2
      by_cases hv : v ∈ (y :: l2).dropLast
      · have hne : y :: l2 ≠ [] := by simp
        obtain ⟨front, b, hfb⟩ : ∃ front b, y :: l2 = front ++ [b] :=
          ⟨_, _, (List.dropLast_append_getLast hne).symm⟩
        have hdl : (y :: l2).dropLast = front := by rw [hfb]; simp
        rw [hdl] at hv hnd
        obtain ⟨s, r0, hs⟩ := List.append_of_mem hv
        subst hs
        have hvr : (v :: (r0 ++ [b])).dropLast = v :: r0 := by
          rw [← List.cons_append, List.dropLast_concat]
        cases s with
        | nil =>
          simp only [List.nil_append, List.cons_append, List.cons.injEq] at hfb
          obtain ⟨hyv, hl2r⟩ := hfb
          subst hyv
          refine ⟨l2, hl2, hw2, ?_⟩
          rw [hl2r, hvr]
          simpa using hnd
        | cons y2 s =>
          simp only [List.cons_append, List.append_assoc, List.cons.injEq] at hfb
          obtain ⟨_, hl2r⟩ := hfb
          refine ⟨r0 ++ [b], by simp, ?_, ?_⟩
          · rw [hl2r] at hw2
            exact walk_suffix t y s v _ x hw2
          · rw [hvr]
            exact hnd.of_append_right
      · refine ⟨y :: l2, by simp, ⟨h.1, hw2⟩, ?_⟩
        cases l2 with
        | nil => exact absurd rfl hl2
        | cons z2 l2 =>
          rw [List.dropLast_cons₂]
          exact List.nodup_cons.2 ⟨hv, hnd⟩

/-- The search of `isDescendant` goes deep enough: it answers true exactly for the
descendants. -/
theorem isDescendant_iff (t : OwnershipTree) (x a : Nat) :
    isDescendant t x a = true ↔ Descendant t x a := by
  rw [descendant_iff_walk]
  unfold isDescendant
  rw [reaches_iff]
  constructor
  · rintro ⟨c, hc, l, _, hw⟩
    exact ⟨c :: l, by simp, hc, hw⟩
  · rintro ⟨l, hl, hw⟩
    obtain ⟨l2, hl2, hw2, hnd⟩ := walk_nodup t a l x hl hw
    cases l2 with
    | nil => exact absurd rfl hl2
    | cons c l2 =>
      refine ⟨c, hw2.1, l2, ?_, hw2.2⟩
      have hsub := walk_inner_mem_keys t a (c :: l2) x hw2
      have hlen := (hnd.subperm hsub).length_le
      simp at hlen
      omega

/-- The cycle check of `setParent`: the call fails with `CycleDetected` exactly when
`parent` is a descendant of `child`. -/
theorem setParent_error_iff (t : OwnershipTree) (p child : Nat) :
    setParent t (some p) child = Except.error TreeError.CycleDetected
      ↔ Descendant t p child := by
  rw [← isDescendant_iff]
  unfold setParent
  by_cases hd : isDescendant t p child = true <;> simp [hd]

end Shiboken
